import Mathlib

/-!
# Verification of `src/apps/trim-tag-convert-video-audio.py`

A shallow embedding of the batch video-processing script. External tools
(`run_subprocess` of ffmpeg invocations, `tag_mp3`, `generate_thumbnails`,
`generate_gif`) are modelled by their observable outcomes, which are inputs
to the embedded functions; the control flow of the script itself — the
`pipeline` function, the manifest merge, the item-construction loop, the
track-number assignment, the sequential and thread-pool batch runners, the
confirmation prompt and the exit-code plumbing of `main` — is translated
directly from the source.
-/

set_option autoImplicit false

namespace TTC

/-- The full default mode list `MODES` of the script. -/
def MODES : List String := ["trim", "mp3", "tag", "thumb", "gif", "market", "yt"]

/-- Observable outcomes of the external calls a single item's `pipeline`
makes.  `trimExit` and `mp3Exit` are the exit codes `run_subprocess` returns
for the ffmpeg trim and mp3-conversion invocations; `tagOk` / `thumbOk` say
whether `tag_mp3` / `generate_thumbnails` return normally (they have no exit
code and signal failure by raising); `gifPassed` is the boolean
`generate_gif` returns. -/
structure StageOutcomes where
  trimExit : Int
  mp3Exit : Int
  tagOk : Bool
  thumbOk : Bool
  gifPassed : Bool
deriving Repr, DecidableEq

/-- All external calls succeed. -/
def allOk : StageOutcomes := ⟨0, 0, true, true, true⟩

/-- How a call of `pipeline` for one item ends: a normal `return` of an exit
code, or a Python exception propagating out (its class name recorded). -/
inductive POutcome where
  | ret (code : Int)
  | exn (name : String)
deriving Repr, DecidableEq

/-- Stages `tag`, `thumb`, `gif` of `pipeline` (lines 96–133) and the final
`return exit_code`.  `vdef` / `adef` record whether the Python locals
`video_filepath` / `audio_filepath` are bound on entry; `mp3Ran` records
whether the mp3 block executed; `trace₀` is the trace of stage blocks begun
so far. -/
def pipelineTail (vdef adef : Bool) (trace₀ : List String) (o : StageOutcomes)
    (ms : List String) (mp3Ran : Bool) : POutcome × List String :=
  let trace₁ := if mp3Ran then trace₀ ++ ["mp3"] else trace₀
  -- stage 03: tag (tag_mp3 reads audio_filepath)
  if "tag" ∈ ms ∧ adef = false then (.exn "NameError", trace₁ ++ ["tag"])
  else if "tag" ∈ ms ∧ o.tagOk = false then (.exn "TagError", trace₁ ++ ["tag"])
  else
    let trace₂ := if "tag" ∈ ms then trace₁ ++ ["tag"] else trace₁
    -- stage 04: thumb (generate_thumbnails reads video_filepath)
    if "thumb" ∈ ms ∧ vdef = false then (.exn "NameError", trace₂ ++ ["thumb"])
    else if "thumb" ∈ ms ∧ o.thumbOk = false then (.exn "ThumbError", trace₂ ++ ["thumb"])
    else
      let tdef := decide ("thumb" ∈ ms)
      let trace₃ := if "thumb" ∈ ms then trace₂ ++ ["thumb"] else trace₂
      -- stage 05: gif (generate_gif reads thumbnail_filepaths)
      if "gif" ∈ ms ∧ tdef = false then (.exn "NameError", trace₃ ++ ["gif"])
      else
        let exit : Int := if "gif" ∈ ms ∧ o.gifPassed = false then 1 else 0
        let trace₄ := if "gif" ∈ ms then trace₃ ++ ["gif"] else trace₃
        (.ret exit, trace₄)

/-- The `pipeline` function of the script (lines 50–133), for one work item.
`skipTrim` is `not (video.start or video.stop)` — when true the trim stage
merely copies the file.  The second component of the result is the list of
stage names whose `if '<stage>' in modes:` block began executing, in order.
Local Python variables `video_filepath`, `audio_filepath` and
`thumbnail_filepaths` are bound only inside the trim / mp3 / thumb blocks
respectively; reading one that is unbound raises `NameError`, which the
model reproduces. -/
def pipelineRun (skipTrim : Bool) (o : StageOutcomes) (modes : List String) :
    POutcome × List String :=
  let ms := if modes = [] then MODES else modes
  -- exit_code = 0; video_filepath / audio_filepath / thumbnail_filepaths unbound
  -- stage 00: trim
  let trimRan := decide ("trim" ∈ ms)
  if "trim" ∈ ms ∧ ¬skipTrim ∧ o.trimExit ≠ 0 then
    (.ret o.trimExit, ["trim"])
  else
    -- after the trim block (run, skipped-with-copy, or mode absent):
    -- video_filepath is bound iff the block executed; exit_code is 0
    let vdef := trimRan
    let trace₁ := if trimRan then ["trim"] else []
    if "mp3" ∈ ms then
      -- mp3_args reads video_filepath (line 89)
      if vdef = false then (.exn "NameError", trace₁ ++ ["mp3"])
      else if o.mp3Exit ≠ 0 then (.ret o.mp3Exit, trace₁ ++ ["mp3"])
      else pipelineTail vdef true trace₁ o ms true
    else pipelineTail vdef false trace₁ o ms false

/-- Result of `pipeline` alone (first component of `pipelineRun`). -/
def pipeline (skipTrim : Bool) (o : StageOutcomes) (modes : List String) : POutcome :=
  (pipelineRun skipTrim o modes).1

example : pipeline false allOk MODES = .ret 0 := by decide
example : pipelineRun false ⟨3, 0, true, true, true⟩ MODES = (.ret 3, ["trim"]) := by decide
example : pipelineRun true ⟨3, 7, true, true, true⟩ MODES = (.ret 7, ["trim", "mp3"]) := by
  decide
example : pipeline false allOk ["mp3"] = .exn "NameError" := by decide
example : pipeline false allOk ["trim", "tag"] = .exn "NameError" := by decide
example : pipeline false allOk ["trim", "mp3", "tag", "gif"] = .exn "NameError" := by decide
example : pipelineRun false ⟨0, 0, true, true, false⟩ MODES
    = (.ret 1, ["trim", "mp3", "tag", "thumb", "gif"]) := by decide

/-! ## Manifest merge (lines 147–164)

A Python `dict` is modelled as an association list with distinct keys kept
in insertion order; `dict.update` replaces the value of an existing key in
place and appends a new key at the end, which `setKey` and `dictUpdate`
reproduce. -/

/-- `d[k] = v` on a Python dict: replace in place, or append a fresh key. -/
def setKey {α : Type} : List (String × α) → String → α → List (String × α)
  | [], k, v => [(k, v)]
  | (k', v') :: t, k, v =>
    if k' = k then (k, v) :: t else (k', v') :: setKey t k v

/-- `d.update(u)` on Python dicts: apply `setKey` for each entry of `u` in
order. -/
def dictUpdate {α : Type} : List (String × α) → List (String × α) → List (String × α)
  | d, [] => d
  | d, (k, v) :: rest => dictUpdate (setKey d k v) rest

/-- `d[k]` / `d.get(k)`: first (and, keys being distinct, only) binding. -/
def lookup {α : Type} : List (String × α) → String → Option α
  | [], _ => none
  | (k', v) :: t, k => if k' = k then some v else lookup t k

/-- A loaded manifest: its `defaults` dict (after the `manifest_*` keys were
injected, lines 152–155) and its `performances` list.  Performance entries
are opaque to the merge, hence a type parameter. -/
structure Manifest (α π : Type) where
  defaults : List (String × α)
  performances : List π
deriving Repr

/-- The body of the merge loop of lines 160–164:
`manifest['defaults'].update(man['defaults'])` and
`manifest['performances'].extend(man['performances'])`. -/
def mergeStep {α π : Type} (acc man : Manifest α π) : Manifest α π :=
  ⟨dictUpdate acc.defaults man.defaults, acc.performances ++ man.performances⟩

/-- The merge loop of lines 158–164: starting from
`dict(defaults={}, performances=[])`, `update` each manifest's defaults and
`extend` with its performances, in argument order. -/
def mergeManifests {α π : Type} (mans : List (Manifest α π)) : Manifest α π :=
  mans.foldl mergeStep ⟨[], []⟩

/-- Modelled from the spec: the dictionary-union of the manifests' defaults
"with later manifests overriding earlier ones on shared keys" — the value of
a key is its value in the last manifest whose defaults bind it. -/
def specUnionLookup {α π : Type} : List (Manifest α π) → String → Option α
  | [], _ => none
  | man :: rest, k =>
    match specUnionLookup rest k with
    | some v => some v
    | none => lookup man.defaults k

/-! ## Item construction and track numbers (lines 166–181) -/

/-- The fields of a constructed `Video` item that the claims mention.
`library/media.py` is not under `src/`, so the item is opaque but for its
`track_num`, an `int` or `None`. -/
structure VideoItem where
  track_num : Option Int
deriving Repr, DecidableEq

/-- The construction loop of lines 171–176: `Video.from_other` either
returns an item or raises; per entry `p`, a raise appends the problem
`(p, message)` and processing continues with the next entry.  Returns the
built `videos` list and the collected `problems`. -/
def collectVideosAux (p : Nat) :
    List (Except String VideoItem) → List VideoItem × List (Nat × String)
  | [] => ([], [])
  | .ok v :: rest =>
    let (vs, ps) := collectVideosAux (p + 1) rest
    (v :: vs, ps)
  | .error e :: rest =>
    let (vs, ps) := collectVideosAux (p + 1) rest
    (vs, (p, e) :: ps)

/-- The construction loop, starting at entry index 0. -/
def collectVideos (results : List (Except String VideoItem)) :
    List VideoItem × List (Nat × String) :=
  collectVideosAux 0 results

/-- The body of the track-number loop of lines 178–181, with `v` the index
of the first item of the remaining list: an item keeps its `track_num` when
set and receives `v + 1` when it is `None`. -/
def assignTracksAux (v : Nat) : List VideoItem → List VideoItem
  | [] => []
  | video :: rest =>
    (match video.track_num with
     | some _ => video
     | none => { video with track_num := some ((v : Int) + 1) }) :: assignTracksAux (v + 1) rest

/-- The track-number loop of lines 178–181 (`enumerate` starts at 0). -/
def assignTracks (videos : List VideoItem) : List VideoItem :=
  assignTracksAux 0 videos

example :
    assignTracks [⟨none⟩, ⟨some 7⟩, ⟨none⟩] = [⟨some 1⟩, ⟨some 7⟩, ⟨some 3⟩] := by
  decide

example :
    collectVideos [.ok ⟨none⟩, .error "boom", .ok ⟨some 2⟩]
      = ([⟨none⟩, ⟨some 2⟩], [(1, "boom")]) := by
  decide

/-! ## Batch runner and exit codes (lines 197–347)

One pipeline call per item is an `Except String Int`: `.ok c` when
`pipeline` returns exit code `c`, `.error e` when it raises exception `e`.
In sequential mode the list is in manifest order; in pool mode every item is
submitted up front and the list is read in *completion* order
(`as_completed`), which the thread pool does not constrain. -/

/-- Observable side effects of a run that the claims talk about. -/
inductive Event where
  | pipelineStarted (idx : Nat)
  | wroteMarketing
  | wroteYoutube (idx : Nat)
deriving Repr, DecidableEq

/-- How `trim_tag_convert_marketing_yt` ends: a `return` (Python `None`
modelled as `Option.none`) or an uncaught exception. -/
inductive Outcome where
  | ret (rc : Option Int)
  | raised (e : String)
deriving Repr, DecidableEq

/-- The sequential loop of lines 219–225, items numbered from `i`:
run each item's pipeline in order; on a nonzero exit code set
`return_code` and `break`; an exception propagates (nothing catches it).
Returns `return_code` (`none` = still Python `None`) or the exception, and
the pipeline-start events. -/
def seqLoop (i : Nat) : List (Except String Int) → Except String (Option Int) × List Event
  | [] => (.ok none, [])
  | .error e :: _ => (.error e, [.pipelineStarted i])
  | .ok c :: rest =>
    if c ≠ 0 then (.ok (some c), [.pipelineStarted i])
    else
      let (r, evs) := seqLoop (i + 1) rest
      (r, .pipelineStarted i :: evs)

/-- The `as_completed` loop of lines 233–247 with `return_code` as the
accumulator (initially `None`): every completed future overwrites
`return_code` with its exit code; a future that raised sets `return_code`
to 1 and breaks. -/
def poolLoop (acc : Option Int) : List (Except String Int) → Option Int
  | [] => acc
  | .error _ :: _ => some 1
  | .ok c :: rest => poolLoop (some c) rest

/-- Pool mode (lines 227–247): all items are submitted to the executor
before any result is read, so every pipeline starts regardless of the
others' results. -/
def poolRun (results : List (Except String Int)) : Option Int × List Event :=
  (poolLoop none results, (List.range results.length).map .pipelineStarted)

/-- Lines 249–316: `if return_code != 0: return return_code` (note: Python
`None != 0` is true, so an all-success sequential run returns `None` here
and skips the text generation); otherwise write the marketing and youtube
texts and fall off the end, returning `None`. -/
def afterPipelines (rc : Option Int) (ms : List String) (n : Nat) :
    Option Int × List Event :=
  if rc ≠ some 0 then (rc, [])
  else
    let mEv := if "market" ∈ ms then [Event.wroteMarketing] else []
    let yEv := if "yt" ∈ ms then (List.range n).map Event.wroteYoutube else []
    (none, mEv ++ yEv)

/-- Python `str.strip()`: drop leading and trailing whitespace.  The answer
string is modelled as its character list. -/
def pyStrip (a : List Char) : List Char :=
  ((a.dropWhile fun c => c.isWhitespace).reverse.dropWhile fun c => c.isWhitespace).reverse

/-- Python `str.lower()` over the characters. -/
def pyLower (a : List Char) : List Char :=
  a.map Char.toLower

/-- Python `str.startswith('y')`. -/
def startsWithY : List Char → Bool
  | [] => false
  | c :: _ => c = 'y'

/-- Line 208–209: `input(...).strip().lower()` then `yes.startswith('y')`. -/
def answerAccepts (a : List Char) : Bool :=
  startsWithY (pyLower (pyStrip a))

/-- Inputs of one run of `trim_tag_convert_marketing_yt` that its control
flow depends on: the collected `problems`, the `--confirm` flag, the answer
typed at the prompt (`none` models `KeyboardInterrupt` while waiting for
input), the `--sequential` flag, the modes, and each item's pipeline result
(in manifest order for sequential mode, completion order for pool mode). -/
structure RunInput where
  problems : List String
  confirm : Bool
  answer : Option (List Char)
  sequential : Bool
  modes : List String
  results : List (Except String Int)

/-- `trim_tag_convert_marketing_yt` (lines 136–316) from the problems check
onward: raise `RuntimeError` when problems exist under `--confirm`; prompt
unless `--confirm`, returning 2 when the reply (stripped, lowercased) does
not start with `y` or on `KeyboardInterrupt`; then run the batch and the
text generation. -/
def trimTagConvertRun (inp : RunInput) : Outcome × List Event :=
  let ms := if inp.modes = [] then MODES else inp.modes
  if inp.problems ≠ [] ∧ inp.confirm then (.raised "RuntimeError", [])
  else
    let proceed : Bool :=
      if inp.confirm then true
      else
        match inp.answer with
        | none => false
        | some a => answerAccepts a
    if proceed = false then (.ret (some 2), [])
    else
      if inp.sequential then
        match seqLoop 0 inp.results with
        | (.error e, evs) => (.raised e, evs)
        | (.ok rc, evs) =>
          let (rc', evs') := afterPipelines rc ms inp.results.length
          (.ret rc', evs ++ evs')
      else
        let (rc, evs) := poolRun inp.results
        let (rc', evs') := afterPipelines rc ms inp.results.length
        (.ret rc', evs ++ evs')

/-- `main` (lines 318–347): `sys.exit` on the returned value — Python
`sys.exit(None)` exits 0, `sys.exit(n)` exits `n`; an uncaught
`KeyboardInterrupt` is turned into exit code 2 (lines 343–345), any other
uncaught exception makes the interpreter exit 1. -/
def mainExit (inp : RunInput) : Int :=
  match (trimTagConvertRun inp).1 with
  | .ret none => 0
  | .ret (some n) => n
  | .raised e => if e = "KeyboardInterrupt" then 2 else 1

/-- First nonzero exit code in a list of exit codes. -/
def firstFailure (codes : List Int) : Option Int :=
  codes.find? (fun c => c ≠ 0)

/-- Last nonzero exit code in a list of exit codes. -/
def lastFailure (codes : List Int) : Option Int :=
  codes.reverse.find? (fun c => c ≠ 0)

example :
    trimTagConvertRun ⟨[], false, some "  No ".toList, true, MODES, [.ok 0]⟩
      = (.ret (some 2), []) := by decide

example :
    trimTagConvertRun ⟨[], true, none, true, MODES, [.ok 0, .ok 3, .ok 0]⟩
      = (.ret (some 3), [.pipelineStarted 0, .pipelineStarted 1]) := by decide

example :
    trimTagConvertRun ⟨[], true, none, false, MODES, [.ok 3, .ok 0]⟩
      = (.ret none,
         [.pipelineStarted 0, .pipelineStarted 1, .wroteMarketing,
          .wroteYoutube 0, .wroteYoutube 1]) := by decide

example : mainExit ⟨[], true, none, false, MODES, [.ok 3, .ok 5]⟩ = 5 := by decide

example : mainExit ⟨[], true, none, false, MODES, [.ok 0, .ok 0]⟩ = 0 := by decide

example : mainExit ⟨[], true, none, true, MODES, [.ok 0, .ok 0]⟩ = 0 := by decide

/-! ## Helper lemmas -/

/-- Does `Video.from_other` return normally for this entry? -/
def isOkB (r : Except String VideoItem) : Bool :=
  match r with
  | .ok _ => true
  | .error _ => false

theorem collectVideosAux_length (p : Nat) (results : List (Except String VideoItem))
    (h : results.all isOkB = true) :
    (collectVideosAux p results).1.length = results.length := by
  induction results generalizing p with
  | nil => rfl
  | cons r rest ih =>
    cases r with
    | ok v =>
      simp only [List.all_cons, Bool.and_eq_true] at h
      simp [collectVideosAux, ih (p + 1) h.2]
    | error e =>
      simp [isOkB] at h

theorem assignTracksAux_getD (k : Nat) (videos : List VideoItem) (i : Nat)
    (hi : i < videos.length) :
    (assignTracksAux k videos).getD i ⟨none⟩
      = match (videos.getD i ⟨none⟩).track_num with
        | none => ⟨some ((k : Int) + i + 1)⟩
        | some t => ⟨some t⟩ := by
  induction videos generalizing k i with
  | nil => simp at hi
  | cons v rest ih =>
    cases i with
    | zero =>
      cases hv : v.track_num with
      | none => simp [assignTracksAux, hv]
      | some t =>
        have : v = ⟨some t⟩ := by cases v; simp_all
        simp [assignTracksAux, hv, this]
    | succ j =>
      have hj : j < rest.length := by simpa using hi
      have := ih (k + 1) j hj
      simp only [assignTracksAux, List.getD_cons_succ]
      rw [this]
      have harith : ((k : Int) + 1) + j + 1 = (k : Int) + (j + 1) + 1 := by ring
      cases (rest.getD j ⟨none⟩).track_num <;> simp [harith]

theorem collectVideosAux_append (p : Nat) (xs ys : List (Except String VideoItem)) :
    collectVideosAux p (xs ++ ys)
      = ((collectVideosAux p xs).1 ++ (collectVideosAux (p + xs.length) ys).1,
         (collectVideosAux p xs).2 ++ (collectVideosAux (p + xs.length) ys).2) := by
  induction xs generalizing p with
  | nil => simp [collectVideosAux]
  | cons r rest ih =>
    have harith : p + (rest.length + 1) = (p + 1) + rest.length := by omega
    cases r with
    | ok v => simp [collectVideosAux, ih (p + 1), harith]
    | error e => simp [collectVideosAux, ih (p + 1), harith]

theorem collectVideosAux_fst_indep (p q : Nat) (xs : List (Except String VideoItem)) :
    (collectVideosAux p xs).1 = (collectVideosAux q xs).1 := by
  induction xs generalizing p q with
  | nil => rfl
  | cons r rest ih =>
    cases r with
    | ok v => simp [collectVideosAux, ih (p + 1) (q + 1)]
    | error e => simp [collectVideosAux, ih (p + 1) (q + 1)]

/-! ## C1 -/

/-- C1: when every performance entry's `Video.from_other` call returns
normally (one `results` entry per override, in list order), the
construction loop yields exactly `results.length` work items, and the
track-number loop gives the item at (0-based) index `i` the track number
`i + 1` whenever its `track_num` was `None` — i.e. the unset track numbers
are assigned `1..N` in list order. -/
theorem c1_merge_count_and_tracks (results : List (Except String VideoItem))
    (h : results.all isOkB = true) :
    (collectVideos results).1.length = results.length
    ∧ ∀ i, i < (collectVideos results).1.length →
        ((collectVideos results).1.getD i ⟨none⟩).track_num = none →
          ((assignTracks (collectVideos results).1).getD i ⟨none⟩).track_num
            = some ((i : Int) + 1) := by
  constructor
  · exact collectVideosAux_length 0 results h
  · intro i hi hnone
    have := assignTracksAux_getD 0 (collectVideos results).1 i hi
    rw [assignTracks, this, hnone]
    simp

/-- C1 witness: three successful constructions with the middle track set. -/
theorem c1_merge_count_and_tracks_witness :
    (collectVideos [.ok ⟨none⟩, .ok ⟨some 5⟩, .ok ⟨none⟩]).1.length = 3
    ∧ ((assignTracks (collectVideos [.ok ⟨none⟩, .ok ⟨some 5⟩, .ok ⟨none⟩]).1).getD
        2 ⟨none⟩).track_num = some 3 := by
  have h := c1_merge_count_and_tracks [.ok ⟨none⟩, .ok ⟨some 5⟩, .ok ⟨none⟩] (by decide)
  exact ⟨h.1, h.2 2 (by decide) (by decide)⟩

/-! ## C5 -/

/-- C5: an entry whose construction raises does not halt the loop: the
items built from the entries after it are all still constructed (the videos
list is the concatenation of the successes before and after it), and its
failure is recorded as the non-fatal problem `(index, message)`. -/
theorem c5_construction_error_nonfatal (pre post : List (Except String VideoItem))
    (e : String) :
    (collectVideos (pre ++ .error e :: post)).1
      = (collectVideos pre).1 ++ (collectVideos post).1
    ∧ (pre.length, e) ∈ (collectVideos (pre ++ .error e :: post)).2 := by
  unfold collectVideos
  rw [collectVideosAux_append]
  constructor
  · simp only [collectVideosAux]
    rw [collectVideosAux_fst_indep (0 + pre.length + 1) 0 post]
  · simp [collectVideosAux]

/-! ## C6 -/

/-- C6: when the user is prompted (`confirm` unset) and the stripped,
lowercased reply does not start with `y`, the function returns 2 before the
batch: no pipeline is started, no marketing or youtube text is written. -/
theorem c6_decline_aborts (inp : RunInput) (a : List Char)
    (hc : inp.confirm = false) (ha : inp.answer = some a)
    (hd : answerAccepts a = false) :
    trimTagConvertRun inp = (.ret (some 2), []) := by
  simp [trimTagConvertRun, hc, ha, hd]

/-- C6 witness: the reply `"  No "` declines a one-item batch. -/
theorem c6_decline_aborts_witness :
    trimTagConvertRun ⟨["missing tag"], false, some "  No ".toList, false, MODES, [.ok 0]⟩
      = (.ret (some 2), []) :=
  c6_decline_aborts _ "  No ".toList rfl rfl (by decide)

/-! ## C7 -/

theorem seqLoop_firstFail (codes : List Int) (k i : Nat) (hi : i < codes.length)
    (hfail : codes.getD i 0 ≠ 0) (hzero : ∀ j, j < i → codes.getD j 0 = 0) :
    seqLoop k (codes.map .ok)
      = (.ok (some (codes.getD i 0)), (List.range' k (i + 1)).map .pipelineStarted) := by
  induction codes generalizing k i with
  | nil => simp at hi
  | cons c rest ih =>
    cases i with
    | zero =>
      simp only [List.getD_cons_zero] at hfail
      simp [seqLoop, hfail, List.range']
    | succ j =>
      have hc : c = 0 := by simpa using hzero 0 (Nat.succ_pos j)
      have hj : j < rest.length := by simpa using hi
      have hjf : rest.getD j 0 ≠ 0 := by simpa using hfail
      have hjz : ∀ m, m < j → rest.getD m 0 = 0 := by
        intro m hm
        simpa using hzero (m + 1) (by omega)
      have := ih (k + 1) j hj hjf hjz
      simp [seqLoop, hc, this, List.range']

/-- C7: sequential mode starts the items' pipelines one at a time in
manifest order; at the first item whose pipeline exits nonzero the loop
breaks with that exit code, so exactly the items up to and including the
first failure were started and no later item's pipeline runs. -/
theorem c7_sequential_fail_fast (codes : List Int) (i : Nat) (hi : i < codes.length)
    (hfail : codes.getD i 0 ≠ 0) (hzero : ∀ j, j < i → codes.getD j 0 = 0) :
    seqLoop 0 (codes.map .ok)
      = (.ok (some (codes.getD i 0)), (List.range (i + 1)).map .pipelineStarted)
    ∧ ∀ j, i < j → Event.pipelineStarted j ∉ (seqLoop 0 (codes.map .ok)).2 := by
  have h := seqLoop_firstFail codes 0 i hi hfail hzero
  rw [List.range_eq_range']
  refine ⟨h, ?_⟩
  intro j hj
  rw [h]
  simp only [List.mem_map, List.mem_range']
  rintro ⟨m, hm, hme⟩
  cases hme
  omega

/-- C7 witness: codes `[0, 3, 9]` stop at index 1; item 2 never starts. -/
theorem c7_sequential_fail_fast_witness :
    seqLoop 0 ([(0 : Int), 3, 9].map .ok)
      = (.ok (some 3), [.pipelineStarted 0, .pipelineStarted 1])
    ∧ Event.pipelineStarted 2 ∉ (seqLoop 0 ([(0 : Int), 3, 9].map .ok)).2 := by
  have h := c7_sequential_fail_fast [0, 3, 9] 1 (by decide) (by decide) (by decide)
  exact ⟨h.1, h.2 2 (by omega)⟩

/-! ## C8 -/

/-- Did this item's pipeline return exit code 0? -/
def isOkZero (r : Except String Int) : Bool :=
  match r with
  | .ok c => c = 0
  | .error _ => false

theorem isOkZero_eq (r : Except String Int) (h : isOkZero r = true) : r = .ok 0 := by
  cases r with
  | ok c =>
    simp only [isOkZero, decide_eq_true_eq] at h
    rw [h]
  | error e => simp [isOkZero] at h

theorem seqLoop_all_zero (k : Nat) (rs : List (Except String Int))
    (h : ∀ r ∈ rs, r = .ok 0) :
    (seqLoop k rs).1 = .ok none := by
  induction rs generalizing k with
  | nil => rfl
  | cons r rest ih =>
    have hr : r = .ok 0 := h r (List.mem_cons_self r rest)
    subst hr
    have := ih (k + 1) (fun r hr => h r (List.mem_cons_of_mem _ hr))
    simp [seqLoop, this]

theorem poolLoop_all_zero (acc : Option Int) (rs : List (Except String Int))
    (h : ∀ r ∈ rs, r = .ok 0) :
    poolLoop acc rs = if rs.length = 0 then acc else some 0 := by
  induction rs generalizing acc with
  | nil => rfl
  | cons r rest ih =>
    have hr : r = .ok 0 := h r (List.mem_cons_self r rest)
    subst hr
    have h2 := ih (some 0) (fun r hr => h r (List.mem_cons_of_mem _ hr))
    simp only [poolLoop] at h2 ⊢
    rw [h2]
    cases rest <;> simp

/-- C8: when every external call of an item succeeds its `pipeline` returns
exit code 0, and when every item's pipeline returns 0 (in either mode) the
process exit code of a confirmed, problem-free run is 0: the batch is an
overall success. -/
theorem c8_all_zero_success (skipTrim : Bool) (o : StageOutcomes) (inp : RunInput)
    (ho : o.trimExit = 0 ∧ o.mp3Exit = 0 ∧ o.tagOk = true ∧ o.thumbOk = true
          ∧ o.gifPassed = true)
    (hc : inp.confirm = true) (hp : inp.problems = [])
    (hm : inp.modes = MODES)
    (hr : inp.results.all isOkZero = true) :
    pipeline skipTrim o MODES = .ret 0 ∧ mainExit inp = 0 := by
  have hall : ∀ r ∈ inp.results, r = Except.ok 0 := by
    intro r hmem
    exact isOkZero_eq r (List.all_eq_true.mp hr r hmem)
  constructor
  · obtain ⟨h1, h2, h3, h4, h5⟩ := ho
    obtain ⟨t, m, tg, th, g⟩ := o
    simp only at h1 h2 h3 h4 h5
    subst h1; subst h2; subst h3; subst h4; subst h5
    cases skipTrim <;> decide
  · unfold mainExit trimTagConvertRun
    rw [hc, hp, hm]
    by_cases hs : inp.sequential = true
    · rw [hs]
      rcases hsq : seqLoop 0 inp.results with ⟨r, evs⟩
      have h1 : r = .ok none := by
        have := seqLoop_all_zero 0 inp.results hall
        rw [hsq] at this
        exact this
      subst h1
      simp [afterPipelines, hsq]
    · simp only [Bool.not_eq_true] at hs
      rw [hs]
      have h1 := poolLoop_all_zero none inp.results hall
      rcases hres : inp.results with _ | ⟨r, rest⟩
      · rw [hres] at h1
        simp only [List.length_nil, reduceIte] at h1
        simp [poolRun, hres, h1, afterPipelines]
      · rw [hres] at h1
        simp only [List.length_cons, Nat.succ_ne_zero, reduceIte] at h1
        simp [poolRun, hres, h1, afterPipelines]

/-- C8 witness: a two-item all-zero pool run exits 0, with all stages ok. -/
theorem c8_all_zero_success_witness :
    pipeline false allOk MODES = .ret 0
    ∧ mainExit ⟨[], true, none, false, MODES, [.ok 0, .ok 0]⟩ = 0 :=
  c8_all_zero_success false allOk ⟨[], true, none, false, MODES, [.ok 0, .ok 0]⟩
    (by decide) rfl rfl rfl (by decide)

/-! ## C2 -/

theorem seqLoop_fst_ok (k : Nat) (codes : List Int) :
    (seqLoop k (codes.map .ok)).1 = .ok (firstFailure codes) := by
  induction codes generalizing k with
  | nil => rfl
  | cons c rest ih =>
    by_cases hc : c = 0
    · subst hc
      simp [seqLoop, firstFailure, List.find?, ih (k + 1)]
    · simp [seqLoop, firstFailure, List.find?, hc]

theorem poolLoop_ok_getLast (acc : Option Int) (codes : List Int) :
    poolLoop acc (codes.map .ok)
      = match codes.getLast? with
        | none => acc
        | some c => some c := by
  induction codes generalizing acc with
  | nil => rfl
  | cons c rest ih =>
    cases rest with
    | nil => simp [poolLoop]
    | cons d t =>
      have h2 := ih (some c)
      simp only [List.map_cons, poolLoop] at h2 ⊢
      rw [h2, List.getLast?_cons_cons]
      rcases hgl : (d :: t).getLast? with _ | e
      · have h3 := List.getLast?_isSome (l := d :: t)
        rw [hgl] at h3
        simp at h3
      · rfl

/-- C2 counterexample: in pool mode, with completion order exit codes
`[3, 0]` the last-seen failing item has exit code 3, but the loop's final
`return_code` is 0 — the later-completing success overwrote the failure. -/
theorem c2_counterexample :
    lastFailure [3, 0] = some 3
    ∧ poolLoop none [Except.ok 3, Except.ok 0] = some 0
    ∧ some (0 : Int) ≠ some (3 : Int) := by
  decide

/-- C2 amended: when at least one item fails, the sequential runner's
aggregated return code is the exit code of the *first*-seen failing item
(fail-fast makes it also the last seen), while the pool runner's aggregated
return code is the exit code of the *last-completed* item, failing or not —
a failure survives only if nothing succeeds after it in completion order. -/
theorem c2_amended_aggregation (codes : List Int) (_h : firstFailure codes ≠ none) :
    (seqLoop 0 (codes.map .ok)).1 = .ok (firstFailure codes)
    ∧ poolLoop none (codes.map .ok)
        = match codes.getLast? with
          | none => none
          | some c => some c := by
  exact ⟨seqLoop_fst_ok 0 codes, poolLoop_ok_getLast none codes⟩

/-- C2 amended witness: codes `[0, 7, 4]`: sequential aggregates 7 (first
failure), pool aggregates 4 (last completed). -/
theorem c2_amended_aggregation_witness :
    (seqLoop 0 ([(0 : Int), 7, 4].map .ok)).1 = .ok (some 7)
    ∧ poolLoop none ([(0 : Int), 7, 4].map .ok) = some 4 := by
  have h := c2_amended_aggregation [0, 7, 4] (by decide)
  exact ⟨h.1.trans rfl, h.2.trans rfl⟩

/-! ## C3 -/

/-- C3 counterexample: a confirmed pool run whose two items fail with exit
codes 3 then 5 (completion order) makes the process exit 5 — neither the
first observed failure 3 nor 2. -/
theorem c3_counterexample :
    mainExit ⟨[], true, none, false, MODES, [.ok 3, .ok 5]⟩ = 5
    ∧ firstFailure [3, 5] = some 3
    ∧ (5 : Int) ≠ 3 ∧ (5 : Int) ≠ 2 := by
  decide

/-- C3 amended: the process exit code is 2 when the user declines the
prompt or interrupts at it; in sequential mode it is the first observed
item failure; in pool mode it is the exit code of the *last-completed*
item (0 when that lets the run continue to completion), not necessarily
the first failure. -/
theorem c3_amended_exit_codes (inp : RunInput) (codes : List Int) (c : Int)
    (hp : inp.problems = []) (_hm : inp.modes = MODES)
    (hres : inp.results = codes.map .ok) :
    ((inp.confirm = false
      ∧ (inp.answer = none ∨ ∃ a, inp.answer = some a ∧ answerAccepts a = false)) →
        mainExit inp = 2)
    ∧ (inp.confirm = true → inp.sequential = true → firstFailure codes = some c →
        mainExit inp = c)
    ∧ (inp.confirm = true → inp.sequential = false →
        mainExit inp = (codes.getLast?).getD 0) := by
  refine ⟨?_, ?_, ?_⟩
  · rintro ⟨hc, hans⟩
    unfold mainExit trimTagConvertRun
    rcases hans with hnone | ⟨a, ha, hd⟩
    · simp [hc, hnone]
    · simp [hc, ha, hd]
  · intro hc hs hff
    have hcz : c ≠ 0 := by
      have := List.find?_some hff
      simpa using this
    unfold mainExit trimTagConvertRun
    rw [hc, hp, hs, hres]
    rcases hsq : seqLoop 0 (codes.map .ok) with ⟨r, evs⟩
    have h1 : r = .ok (some c) := by
      have h2 := seqLoop_fst_ok 0 codes
      rw [hsq, hff] at h2
      exact h2
    subst h1
    simp [afterPipelines, hsq, hcz]
  · intro hc hs
    unfold mainExit trimTagConvertRun
    rw [hc, hp, hs, hres]
    have h1 := poolLoop_ok_getLast none codes
    rcases hlast : codes.getLast? with _ | d
    · rw [hlast] at h1
      simp [poolRun, h1, afterPipelines]
    · rw [hlast] at h1
      by_cases hd : d = 0
      · subst hd
        simp [poolRun, h1, afterPipelines]
      · simp [poolRun, h1, afterPipelines, hd]

/-- C3 amended witness: declining exits 2; sequential `[0, 7, 4]` exits 7;
pool `[0, 7, 4]` (completion order) exits 4. -/
theorem c3_amended_exit_codes_witness :
    mainExit ⟨[], false, some "n".toList, true, MODES, ([(0 : Int), 7, 4].map .ok)⟩ = 2
    ∧ mainExit ⟨[], true, none, true, MODES, ([(0 : Int), 7, 4].map .ok)⟩ = 7
    ∧ mainExit ⟨[], true, none, false, MODES, ([(0 : Int), 7, 4].map .ok)⟩ = 4 := by
  refine ⟨?_, ?_, ?_⟩
  · exact (c3_amended_exit_codes _ [0, 7, 4] 7 rfl rfl rfl).1
      ⟨rfl, Or.inr ⟨"n".toList, rfl, by decide⟩⟩
  · exact (c3_amended_exit_codes _ [0, 7, 4] 7 rfl rfl rfl).2.1 rfl rfl (by decide)
  · have := (c3_amended_exit_codes
        ⟨[], true, none, false, MODES, ([(0 : Int), 7, 4].map .ok)⟩
        [0, 7, 4] 7 rfl rfl rfl).2.2 rfl rfl
    simpa using this

/-! ## C4 -/

/-- C4: for a full-modes item pipeline — a stage that exits nonzero makes
`pipeline` return exactly that stage's exit code without running the item's
later stages (trim failure returns before mp3/tag/thumb/gif; mp3 failure
returns before tag/thumb/gif; a gif failure, the last stage, yields its
exit code 1), and in pool mode one item's failure aborts no other item:
every item's pipeline is submitted regardless of all results. -/
theorem c4_stage_failure_short_circuits (skipTrim : Bool) (o : StageOutcomes)
    (results : List (Except String Int)) :
    (skipTrim = false → o.trimExit ≠ 0 →
        pipelineRun skipTrim o MODES = (.ret o.trimExit, ["trim"]))
    ∧ ((skipTrim = true ∨ o.trimExit = 0) → o.mp3Exit ≠ 0 →
        pipelineRun skipTrim o MODES = (.ret o.mp3Exit, ["trim", "mp3"]))
    ∧ ((skipTrim = true ∨ o.trimExit = 0) → o.mp3Exit = 0 → o.tagOk = true →
        o.thumbOk = true → o.gifPassed = false →
        pipelineRun skipTrim o MODES = (.ret 1, ["trim", "mp3", "tag", "thumb", "gif"]))
    ∧ (poolRun results).2 = (List.range results.length).map .pipelineStarted := by
  refine ⟨?_, ?_, ?_, rfl⟩
  · intro hskip htrim
    subst hskip
    simp [pipelineRun, MODES, htrim]
  · intro htrim hmp3
    have htr : ¬(skipTrim = false ∧ o.trimExit ≠ 0) := by
      rcases htrim with h | h
      · rw [h]; simp
      · rw [h]; simp
    simp only [pipelineRun, MODES]
    norm_num
    rcases htrim with h | h
    · rw [h]
      simp [hmp3]
    · by_cases hsk : skipTrim <;> simp [hsk, h, hmp3]
  · intro htrim hmp3 htag hthumb hgif
    simp only [pipelineRun, pipelineTail, MODES]
    norm_num
    rcases htrim with h | h
    · rw [h]
      simp [hmp3, htag, hthumb, hgif, pipelineTail]
    · by_cases hsk : skipTrim <;>
        simp [hsk, h, hmp3, htag, hthumb, hgif, pipelineTail]

/-- C4 witness: a trim failure with exit code 4, an mp3 failure with exit
code 5, and a gif failure, each short-circuiting as claimed. -/
theorem c4_stage_failure_short_circuits_witness :
    pipelineRun false ⟨4, 0, true, true, true⟩ MODES = (.ret 4, ["trim"])
    ∧ pipelineRun true ⟨0, 5, true, true, true⟩ MODES = (.ret 5, ["trim", "mp3"])
    ∧ pipelineRun false ⟨0, 0, true, true, false⟩ MODES
        = (.ret 1, ["trim", "mp3", "tag", "thumb", "gif"]) := by
  refine ⟨?_, ?_, ?_⟩
  · exact (c4_stage_failure_short_circuits false ⟨4, 0, true, true, true⟩ []).1
      rfl (by decide)
  · exact (c4_stage_failure_short_circuits true ⟨0, 5, true, true, true⟩ []).2.1
      (Or.inl rfl) (by decide)
  · exact (c4_stage_failure_short_circuits false ⟨0, 0, true, true, false⟩ []).2.2.1
      (Or.inr rfl) rfl rfl rfl rfl

/-! ## C10 -/

/-- C10: the mode subsets are not independent — for the work item with no
trim bounds and all external calls succeeding, any modes list containing
`mp3` without `trim`, or `tag` without `mp3`, or `gif` without `thumb`,
makes `pipeline` raise `NameError`: the later stage reads a local
(`video_filepath`, `audio_filepath`, `thumbnail_filepaths`) that only the
skipped earlier stage's branch binds. -/
theorem c10_mode_subsets_name_error (modes : List String)
    (h : ("mp3" ∈ modes ∧ "trim" ∉ modes)
       ∨ ("tag" ∈ modes ∧ "mp3" ∉ modes)
       ∨ ("gif" ∈ modes ∧ "thumb" ∉ modes)) :
    pipeline true allOk modes = .exn "NameError" := by
  have hne : modes ≠ [] := by
    rcases h with ⟨h1, _⟩ | ⟨h1, _⟩ | ⟨h1, _⟩ <;> exact List.ne_nil_of_mem h1
  by_cases htrim : "trim" ∈ modes <;>
    by_cases hmp3 : "mp3" ∈ modes <;>
      by_cases htag : "tag" ∈ modes <;>
        by_cases hthumb : "thumb" ∈ modes <;>
          by_cases hgif : "gif" ∈ modes <;>
            simp_all [pipeline, pipelineRun, pipelineTail, allOk]

/-- C10 witness: `modes = ['mp3']` raises `NameError`. -/
theorem c10_mode_subsets_name_error_witness :
    pipeline true allOk ["mp3"] = .exn "NameError" :=
  c10_mode_subsets_name_error ["mp3"] (by decide)

/-! ## C9 -/

theorem lookup_setKey {α : Type} (d : List (String × α)) (k k' : String) (v : α) :
    lookup (setKey d k v) k' = if k = k' then some v else lookup d k' := by
  induction d with
  | nil => by_cases h : k = k' <;> simp [setKey, lookup, h]
  | cons kv t ih =>
    obtain ⟨k0, v0⟩ := kv
    by_cases h0 : k0 = k
    · subst h0
      by_cases h : k0 = k' <;> simp [setKey, lookup, h]
    · by_cases h : k0 = k'
      · subst h
        have hk : ¬k = k0 := fun he => h0 he.symm
        simp [setKey, lookup, h0, hk]
      · simp [setKey, lookup, h0, h, ih]

theorem lookup_eq_none_of_not_mem {α : Type} (d : List (String × α)) (k : String)
    (h : k ∉ d.map Prod.fst) : lookup d k = none := by
  induction d with
  | nil => rfl
  | cons kv t ih =>
    obtain ⟨k0, v0⟩ := kv
    simp only [List.map_cons, List.mem_cons] at h
    push_neg at h
    have hk : ¬k0 = k := fun he => h.1 he.symm
    simp [lookup, hk, ih h.2]

theorem lookup_dictUpdate {α : Type} (d u : List (String × α)) (k : String)
    (hu : (u.map Prod.fst).Nodup) :
    lookup (dictUpdate d u) k
      = match lookup u k with
        | some v => some v
        | none => lookup d k := by
  induction u generalizing d with
  | nil => simp [dictUpdate, lookup]
  | cons kv rest ih =>
    obtain ⟨k0, v0⟩ := kv
    simp only [List.map_cons, List.nodup_cons] at hu
    have h1 := ih (setKey d k0 v0) hu.2
    simp only [dictUpdate] at h1 ⊢
    rw [h1, lookup_setKey]
    by_cases hk : k0 = k
    · subst hk
      have h2 : lookup rest k0 = none := lookup_eq_none_of_not_mem rest k0 hu.1
      simp [lookup, h2]
    · simp [lookup, hk]

theorem mergeFoldl_defaults_lookup {α π : Type} (mans : List (Manifest α π))
    (acc : Manifest α π) (k : String)
    (h : ∀ man ∈ mans, (man.defaults.map Prod.fst).Nodup) :
    lookup (mans.foldl mergeStep acc).defaults k
      = match specUnionLookup mans k with
        | some v => some v
        | none => lookup acc.defaults k := by
  induction mans generalizing acc with
  | nil => simp [specUnionLookup]
  | cons man rest ih =>
    simp only [List.foldl_cons, specUnionLookup]
    rw [ih (mergeStep acc man) (fun m hm => h m (List.mem_cons_of_mem _ hm))]
    have h2 := lookup_dictUpdate acc.defaults man.defaults k
      (h man (List.mem_cons_self man rest))
    simp only [mergeStep] at *
    rw [h2]
    cases specUnionLookup rest k <;> cases hlm : lookup man.defaults k <;> simp

theorem mergeFoldl_performances {α π : Type} (mans : List (Manifest α π))
    (acc : Manifest α π) :
    (mans.foldl mergeStep acc).performances
      = acc.performances ++ (mans.map Manifest.performances).flatten := by
  induction mans generalizing acc with
  | nil => simp
  | cons man rest ih =>
    simp only [List.foldl_cons, List.map_cons, List.flatten]
    rw [ih (mergeStep acc man)]
    simp [mergeStep]

/-- C9: the merged manifest's defaults are the dictionary-union of the
manifests' defaults (as injected and loaded, in argument order), each key
taking its value from the last manifest whose defaults bind it; the merged
performances list is the concatenation of the manifests' performance lists
in argument order.  The dict keys of each manifest are distinct, as Python
guarantees. -/
theorem c9_merge_semantics {α π : Type} (mans : List (Manifest α π)) (k : String)
    (h : ∀ man ∈ mans, (man.defaults.map Prod.fst).Nodup) :
    lookup (mergeManifests mans).defaults k = specUnionLookup mans k
    ∧ (mergeManifests mans).performances = (mans.map Manifest.performances).flatten := by
  constructor
  · have h1 := mergeFoldl_defaults_lookup mans ⟨[], []⟩ k h
    rw [mergeManifests, h1]
    cases specUnionLookup mans k <;> simp [lookup]
  · have h1 := mergeFoldl_performances mans ⟨[], []⟩
    rw [mergeManifests, h1]
    rfl

/-- C9 witness: two manifests sharing the key `year`; the later value wins
and the performance lists concatenate. -/
theorem c9_merge_semantics_witness :
    lookup (mergeManifests
        [⟨[("artist", (1 : Int)), ("year", 2)], [(10 : Int)]⟩,
         ⟨[("year", (3 : Int)), ("genre", 4)], [20, 30]⟩]).defaults "year"
      = some 3
    ∧ (mergeManifests
        [⟨[("artist", (1 : Int)), ("year", 2)], [(10 : Int)]⟩,
         ⟨[("year", (3 : Int)), ("genre", 4)], [20, 30]⟩]).performances
      = [10, 20, 30] := by
  have h := c9_merge_semantics
    [⟨[("artist", (1 : Int)), ("year", 2)], [(10 : Int)]⟩,
     ⟨[("year", (3 : Int)), ("genre", 4)], [20, 30]⟩] "year" (by decide)
  exact ⟨h.1.trans rfl, h.2.trans rfl⟩

end TTC
